import Mathlib

/-!
Shallow embedding of the market-data aggregation core of `src/bot.py`
(crypto market bot): the TTL cache (`get_cached` / `set_cached`), the two
source fetchers (`fetch_btc_price`, `fetch_fear_greed`), their text
extraction and labelling logic, and the snapshot composer
(`get_market_snapshot`).

Modelling conventions:
- wall-clock time is a natural number of seconds, passed explicitly
  (Python reads `time.time()` inside each call);
- Python floats parsed from the price feed are modelled as rationals;
- the process-wide dict `_cache` is a function from string keys to an
  optional (value, timestamp) pair, updated pointwise;
- network and parsing effects are oracles (`PriceResp`, `FGResp`)
  describing the outcome of the request / parse that the code performs
  inside its `try` blocks; every `except` path of the source is one
  oracle constructor;
- each fetcher also returns the number of outbound network requests it
  issued, so that cache-hit behaviour is observable.
-/

namespace CryptoBot

/-- `REQUEST_TIMEOUT = 15` (src/bot.py line 44, seconds). -/
def REQUEST_TIMEOUT : ℕ := 15

/-- `CACHE_TTL = 60` (src/bot.py line 48, seconds). -/
def CACHE_TTL : ℕ := 60

/-- `USER_AGENT` constant (src/bot.py lines 39-43). -/
def USER_AGENT : String :=
  "Mozilla/5.0 (Windows NT 10.0; Win64; x64) AppleWebKit/537.36 (KHTML, like Gecko) Chrome/120.0.0.0 Safari/537.36"

/-- A value stored in the cache dict `_cache`. The code stores exactly two
shapes: a float price under `"btc_price"` and an (int, str) pair under
`"fear_greed"`. -/
inductive CacheVal : Type where
  | price (p : ℚ)
  | fg (v : ℕ) (label : String)
deriving DecidableEq

/-- The process-wide dict `_cache : {key: (value, time)}` (src/bot.py line 47). -/
abbrev Cache : Type := String → Option (CacheVal × ℕ)

/-- `_cache = {}`: the cache at process start. -/
def emptyCache : Cache := fun _ => none

/-- `get_cached(key)` (src/bot.py lines 73-79). Returns the stored value if
present and younger than `CACHE_TTL`; the function performs no writes, which
the embedding records by also returning the (unchanged) cache. -/
def get_cached (c : Cache) (now : ℕ) (key : String) : Option CacheVal × Cache :=
  match c key with
  | some (value, timestamp) =>
      if now - timestamp < CACHE_TTL then (some value, c) else (none, c)
  | none => (none, c)

/-- `set_cached(key, value)` (src/bot.py lines 82-84): unconditional
overwrite with the current time. -/
def set_cached (c : Cache) (now : ℕ) (key : String) (value : CacheVal) : Cache :=
  fun k => if k = key then some (value, now) else c k

/-- Python truthiness of a cached value: a float is truthy iff nonzero, a
non-empty tuple is always truthy. Used by the `if cached:` checks. -/
def CacheVal.truthy : CacheVal → Bool
  | .price p => decide (p ≠ 0)
  | .fg _ _ => true

/-- Python truthiness of `get_cached`'s result (`None` is falsy). -/
def truthyOpt : Option CacheVal → Bool
  | none => false
  | some cv => cv.truthy

/-! ### Outbound request descriptors (src/bot.py lines 55-67 and 97-99) -/

/-- The arguments the code passes to `requests.get`. `headers = []` means no
`headers=` keyword was passed (library-default identification). -/
structure RequestSpec : Type where
  url : String
  headers : List (String × String)
  timeout : ℕ
deriving DecidableEq

/-- The GET issued by `fetch_html(url)` (src/bot.py lines 58-65): browser
header set plus `timeout=REQUEST_TIMEOUT`. -/
def fetch_html_request (url : String) : RequestSpec :=
  { url := url
    headers :=
      [("User-Agent", USER_AGENT),
       ("Accept", "text/html,application/xhtml+xml,application/xml;q=0.9,*/*;q=0.8"),
       ("Accept-Language", "en-US,en;q=0.9"),
       ("Accept-Encoding", "gzip, deflate"),
       ("Connection", "keep-alive")]
    timeout := REQUEST_TIMEOUT }

/-- The GET issued by `fetch_btc_price` (src/bot.py line 99):
`requests.get(url, timeout=REQUEST_TIMEOUT)` — no `headers=` argument. -/
def btc_price_request : RequestSpec :=
  { url := "https://blockchain.info/ticker"
    headers := []
    timeout := REQUEST_TIMEOUT }

/-! ### Price fetcher (src/bot.py lines 87-113) -/

/-- Outcome of the network request and JSON parse inside `fetch_btc_price`'s
`try` block. `exn` covers any raised exception (transport error,
`raise_for_status`, JSON decode error, `float(...)` failure); `missing`
covers a parsed body without `USD`/`last`; `ok last` is the parsed number
`float(data["USD"]["last"])`. -/
inductive PriceResp : Type where
  | exn
  | missing
  | ok (last : ℚ)
deriving DecidableEq

/-- The body of `fetch_btc_price` after the cache check (src/bot.py
lines 96-113): one network request, then validate `price > 0`, cache and
return it, else return `None`. -/
def btc_net (r : PriceResp) (c : Cache) (now : ℕ) : Option CacheVal × Cache × ℕ :=
  match r with
  | .exn => (none, c, 1)
  | .missing => (none, c, 1)
  | .ok last =>
      if 0 < last then
        (some (CacheVal.price last), set_cached c now "btc_price" (CacheVal.price last), 1)
      else (none, c, 1)

/-- `fetch_btc_price()` (src/bot.py lines 87-113): `if cached: return cached`
then the network path. Returns (result, cache, network-request count). -/
def fetch_btc_price (r : PriceResp) (c : Cache) (now : ℕ) : Option CacheVal × Cache × ℕ :=
  match (get_cached c now "btc_price").1 with
  | some cv => if cv.truthy then (some cv, c, 0) else btc_net r c now
  | none => btc_net r c now

/-! ### Sentiment text extraction (src/bot.py lines 134-140)

The code runs `re.search(r"Now[^\d]*(\d{1,3})", text, re.IGNORECASE)` and,
when that fails, the same pattern with the token `Index`. `re.search` takes
the leftmost starting position at which the whole pattern matches; at such a
position the greedy `[^\d]*` runs exactly to the first following digit, and
`(\d{1,3})` captures up to three digits of that digit run. `\d` is modelled
as the ASCII digits. -/

/-- `int(match.group(1))` on a digit string. -/
def digitsToNat (l : List Char) : ℕ :=
  l.foldl (fun n ch => 10 * n + (ch.toNat - 48)) 0

/-- Case-insensitive "is `tok` a prefix of `s`" (effect of `re.IGNORECASE`
on the literal token). -/
def ciStarts : List Char → List Char → Bool
  | [], _ => true
  | _ :: _, [] => false
  | a :: as, b :: bs => (a.toLower == b.toLower) && ciStarts as bs

/-- Attempt the pattern `tok[^\d]*(\d{1,3})` anchored at the head of `s`:
the token (case-insensitively), then any run of non-digits, then at least
one digit; the capture is the first up-to-three digits of that digit run. -/
def matchAt (tok s : List Char) : Option ℕ :=
  if ciStarts tok s then
    let rest := s.drop tok.length
    let digs := (rest.dropWhile fun ch => !ch.isDigit).takeWhile fun ch => ch.isDigit
    match digs with
    | [] => none
    | _ :: _ => some (digitsToNat (digs.take 3))
  else none

/-- `re.search` for `tok[^\d]*(\d{1,3})`: try each start position from the
left, returning the first successful capture. -/
def searchTok (tok : List Char) : List Char → Option ℕ
  | [] => none
  | c :: cs =>
      match matchAt tok (c :: cs) with
      | some v => some v
      | none => searchTok tok cs

/-- The primary pattern `Now[^\d]*(\d{1,3})` over the page text. -/
def searchNow (text : String) : Option ℕ :=
  searchTok "now".toList text.toList

/-- The fallback pattern `Index[^\d]*(\d{1,3})` over the page text. -/
def searchIndex (text : String) : Option ℕ :=
  searchTok "index".toList text.toList

/-- The two-pattern extraction of src/bot.py lines 134-137: the `Now`
pattern first, and the `Index` pattern only when it found nothing. -/
def extract_fg_value (text : String) : Option ℕ :=
  match searchNow text with
  | some v => some v
  | none => searchIndex text

/-- The threshold labelling of src/bot.py lines 143-152. -/
def fg_label (value : ℕ) : String :=
  if value ≤ 25 then "Extreme Fear"
  else if value ≤ 45 then "Fear"
  else if value ≤ 55 then "Neutral"
  else if value ≤ 75 then "Greed"
  else "Extreme Greed"

/-! ### Sentiment fetcher (src/bot.py lines 116-161) -/

/-- Outcome of `fetch_html` plus BeautifulSoup text extraction.
`htmlFail` is `fetch_html` returning `None`; `exn` is an exception raised
by the parse (caught by the `except` on line 159); `text t` is the
extracted plain text `soup.get_text()`. -/
inductive FGResp : Type where
  | htmlFail
  | exn
  | text (t : String)

/-- What `fetch_fear_greed` hands back to its caller. Python returns either
a 2-tuple — `(value, label)` or `(None, None)`, modelled as `tup (some _)` /
`tup none` — or, on a cache hit whose stored value is a float, that raw
float (`return cached`), which the caller's tuple unpacking cannot consume. -/
inductive FGRet : Type where
  | tup (o : Option (ℕ × String))
  | raw (p : ℚ)
deriving DecidableEq

/-- The body of `fetch_fear_greed` after the cache check (src/bot.py
lines 125-161): one network request (`fetch_html`), extraction, range
validation, labelling, caching. Every failure path returns `(None, None)`. -/
def fg_net (r : FGResp) (c : Cache) (now : ℕ) : FGRet × Cache × ℕ :=
  match r with
  | .htmlFail => (.tup none, c, 1)
  | .exn => (.tup none, c, 1)
  | .text t =>
      match extract_fg_value t with
      | some value =>
          if 0 ≤ value ∧ value ≤ 100 then
            (.tup (some (value, fg_label value)),
             set_cached c now "fear_greed" (CacheVal.fg value (fg_label value)), 1)
          else (.tup none, c, 1)
      | none => (.tup none, c, 1)

/-- `fetch_fear_greed()` (src/bot.py lines 116-161): `if cached: return
cached` (a stored pair is a truthy tuple; a stored float is truthy iff
nonzero and would be returned as-is), then the network path. -/
def fetch_fear_greed (r : FGResp) (c : Cache) (now : ℕ) : FGRet × Cache × ℕ :=
  match (get_cached c now "fear_greed").1 with
  | some (.fg v l) => (.tup (some (v, l)), c, 0)
  | some (.price p) => if p ≠ 0 then (.raw p, c, 0) else fg_net r c now
  | none => fg_net r c now

/-! ### Snapshot composer (src/bot.py lines 164-174) -/

/-- The dict returned by `get_market_snapshot`. The timestamp is the capture
time (Python formats `datetime.now()` as a string; the embedding keeps the
instant itself). -/
structure Snapshot : Type where
  btc_price : Option CacheVal
  fear_value : Option ℕ
  fear_label : Option String
  timestamp : ℕ
deriving DecidableEq

/-- `get_market_snapshot()` (src/bot.py lines 164-174): call both fetchers
in sequence, unpack `fear_value, fear_label = fetch_fear_greed()`, and
build the dict. A `raw` sentiment result makes the tuple unpacking raise,
modelled as `none`; the request counts of both fetchers add up. -/
def get_market_snapshot (pr : PriceResp) (fr : FGResp) (c : Cache) (now : ℕ) :
    Option Snapshot × Cache × ℕ :=
  let b := fetch_btc_price pr c now
  let f := fetch_fear_greed fr b.2.1 now
  match f.1 with
  | .tup o =>
      (some { btc_price := b.1, fear_value := o.map Prod.fst,
              fear_label := o.map Prod.snd, timestamp := now },
       f.2.1, b.2.2 + f.2.2)
  | .raw _ => (none, f.2.1, b.2.2 + f.2.2)

/-! ### Cache algebra -/

theorem set_cached_ne (c : Cache) (t : ℕ) (k k' : String) (v : CacheVal) (h : k' ≠ k) :
    set_cached c t k v k' = c k' := by
  simp [set_cached, h]

theorem set_cached_eq (c : Cache) (t : ℕ) (k : String) (v : CacheVal) :
    set_cached c t k v k = some (v, t) := by
  simp [set_cached]

theorem get_cached_pure (c : Cache) (now : ℕ) (k : String) :
    (get_cached c now k).2 = c := by
  unfold get_cached
  cases c k with
  | none => rfl
  | some e =>
      obtain ⟨v, t⟩ := e
      by_cases h : now - t < CACHE_TTL <;> simp [h]

theorem get_cached_fst_set_ne (c : Cache) (t now : ℕ) (k k' : String) (v : CacheVal)
    (h : k' ≠ k) :
    (get_cached (set_cached c t k v) now k').1 = (get_cached c now k').1 := by
  unfold get_cached
  rw [set_cached_ne c t k k' v h]
  cases c k' with
  | none => rfl
  | some e =>
      obtain ⟨w, ts⟩ := e
      by_cases hf : now - ts < CACHE_TTL <;> simp [hf]

theorem get_cached_some {c : Cache} {now : ℕ} {k : String} {cv : CacheVal}
    (h : (get_cached c now k).1 = some cv) :
    ∃ t, c k = some (cv, t) ∧ now - t < CACHE_TTL := by
  unfold get_cached at h
  cases hk : c k with
  | none => rw [hk] at h; exact absurd h (by simp)
  | some e =>
      obtain ⟨w, ts⟩ := e
      rw [hk] at h
      by_cases hf : now - ts < CACHE_TTL
      · simp only [hf, if_true] at h
        obtain rfl : w = cv := by injection h
        exact ⟨ts, rfl, hf⟩
      · simp [hf] at h

theorem get_cached_hit {c : Cache} {now t : ℕ} {k : String} {cv : CacheVal}
    (h1 : c k = some (cv, t)) (h2 : now - t < CACHE_TTL) :
    (get_cached c now k).1 = some cv := by
  unfold get_cached
  rw [h1]
  simp [h2]

/-! ### Shape lemmas for the fetchers -/

theorem btc_net_shape (r : PriceResp) (c : Cache) (now : ℕ) :
    btc_net r c now = (none, c, 1) ∨
      ∃ p : ℚ, 0 < p ∧ btc_net r c now =
        (some (CacheVal.price p), set_cached c now "btc_price" (CacheVal.price p), 1) := by
  cases r with
  | exn => exact Or.inl rfl
  | missing => exact Or.inl rfl
  | ok last =>
      by_cases h : 0 < last
      · exact Or.inr ⟨last, h, by simp [btc_net, h]⟩
      · exact Or.inl (by simp [btc_net, h])

theorem btc_fetch_shape (r : PriceResp) (c : Cache) (now : ℕ) :
    (∃ cv, (get_cached c now "btc_price").1 = some cv ∧ cv.truthy = true ∧
        fetch_btc_price r c now = (some cv, c, 0)) ∨
      fetch_btc_price r c now = btc_net r c now := by
  unfold fetch_btc_price
  cases hg : (get_cached c now "btc_price").1 with
  | none => exact Or.inr rfl
  | some cv =>
      by_cases ht : cv.truthy = true
      · exact Or.inl ⟨cv, rfl, ht, by simp [ht]⟩
      · simp [ht]

theorem fg_net_shape (r : FGResp) (c : Cache) (now : ℕ) :
    fg_net r c now = (.tup none, c, 1) ∨
      ∃ v, v ≤ 100 ∧ fg_net r c now =
        (.tup (some (v, fg_label v)),
         set_cached c now "fear_greed" (CacheVal.fg v (fg_label v)), 1) := by
  cases r with
  | htmlFail => exact Or.inl rfl
  | exn => exact Or.inl rfl
  | text t =>
      cases he : extract_fg_value t with
      | none => exact Or.inl (by simp [fg_net, he])
      | some v =>
          by_cases hv : 0 ≤ v ∧ v ≤ 100
          · exact Or.inr ⟨v, hv.2, by simp [fg_net, he, hv]⟩
          · have hv' : ¬ v ≤ 100 := fun h => hv ⟨Nat.zero_le v, h⟩
            exact Or.inl (by simp [fg_net, he, hv, hv'])

theorem fg_net_fst (r : FGResp) (c c' : Cache) (now now' : ℕ) :
    (fg_net r c now).1 = (fg_net r c' now').1 := by
  cases r with
  | htmlFail => rfl
  | exn => rfl
  | text t =>
      cases he : extract_fg_value t with
      | none => simp [fg_net, he]
      | some v =>
          by_cases hv : v ≤ 100 <;> simp [fg_net, he, hv]

theorem fg_fetch_shape (r : FGResp) (c : Cache) (now : ℕ) :
    (∃ v l, (get_cached c now "fear_greed").1 = some (CacheVal.fg v l) ∧
        fetch_fear_greed r c now = (.tup (some (v, l)), c, 0)) ∨
      (∃ p : ℚ, p ≠ 0 ∧ (get_cached c now "fear_greed").1 = some (CacheVal.price p) ∧
        fetch_fear_greed r c now = (.raw p, c, 0)) ∨
      fetch_fear_greed r c now = fg_net r c now := by
  unfold fetch_fear_greed
  cases hg : (get_cached c now "fear_greed").1 with
  | none => exact Or.inr (Or.inr rfl)
  | some cv =>
      cases cv with
      | fg v l => exact Or.inl ⟨v, l, rfl, rfl⟩
      | price p =>
          by_cases hp : p ≠ 0
          · exact Or.inr (Or.inl ⟨p, hp, rfl, by simp [hp]⟩)
          · simp [hp]

theorem fg_fst_after_btc_set (r : FGResp) (c : Cache) (t now : ℕ) (w : CacheVal) :
    (fetch_fear_greed r (set_cached c t "btc_price" w) now).1 =
      (fetch_fear_greed r c now).1 := by
  unfold fetch_fear_greed
  rw [get_cached_fst_set_ne c t now "btc_price" "fear_greed" w (by decide)]
  cases (get_cached c now "fear_greed").1 with
  | none => exact fg_net_fst r _ c now now
  | some cv =>
      cases cv with
      | fg v l => rfl
      | price p =>
          by_cases hp : p ≠ 0
          · simp [hp]
          · simp only [hp, if_false]
            exact fg_net_fst r _ c now now

/-! ### Predicates used in the claim statements -/

/-- The entry under `"fear_greed"` is not a truthy float: the only cache
shape on which `fetch_fear_greed`'s `return cached` would hand a
non-tuple to the caller's unpacking. Holds for every reachable cache. -/
def fgEntryNotFloat : Option (CacheVal × ℕ) → Prop
  | some (CacheVal.price p, _) => p = 0
  | _ => True

/-- Well-formedness of the `"btc_price"` slot: only strictly positive
prices are ever stored there. -/
def priceEntryOK : Option (CacheVal × ℕ) → Prop
  | none => True
  | some (CacheVal.price p, _) => 0 < p
  | some (CacheVal.fg _ _, _) => False

/-- Well-formedness of the `"fear_greed"` slot: only pairs `(v, label)`
with `v ∈ [0,100]` and `label` the threshold mapping of `v`. -/
def fgEntryOK : Option (CacheVal × ℕ) → Prop
  | none => True
  | some (CacheVal.fg v l, _) => v ≤ 100 ∧ l = fg_label v
  | some (CacheVal.price _, _) => False

/-- The cache invariant of the core (claim C9). -/
def CacheWF (c : Cache) : Prop :=
  priceEntryOK (c "btc_price") ∧ fgEntryOK (c "fear_greed")

/-- The entry under `k`, if any, is still fresh at `now`. -/
def entryFresh (c : Cache) (now : ℕ) (k : String) : Bool :=
  match c k with
  | some (_, t) => decide (now - t < CACHE_TTL)
  | none => true

/-- The price-source outcomes the spec counts as failures: a raised
exception, a body without `USD.last`, or a parsed value `≤ 0`. -/
def PriceResp.failsB : PriceResp → Bool
  | .exn => true
  | .missing => true
  | .ok last => decide (last ≤ 0)

/-- The sentiment-source outcomes the spec counts as failures: a failed
page fetch, a raised parse exception, or text whose extraction yields no
match or an out-of-range value. -/
def FGResp.failsB : FGResp → Bool
  | .htmlFail => true
  | .exn => true
  | .text t =>
      match extract_fg_value t with
      | none => true
      | some v => !(decide (0 ≤ v ∧ v ≤ 100))

/-! ### Claims about the cache and the individual fetchers -/

/-- Claim C2: a `set_cached(k, v)` read back strictly within TTL returns
`v`; at age ≥ TTL the read returns absent although the entry physically
remains in the map (until a later write overwrites it); and `get_cached`
never mutates the cache. -/
theorem claim_C2 (c : Cache) (k : String) (v : CacheVal) (t₀ now₁ now₂ : ℕ)
    (h₁ : now₁ - t₀ < CACHE_TTL) (h₂ : CACHE_TTL ≤ now₂ - t₀) :
    (get_cached (set_cached c t₀ k v) now₁ k).1 = some v ∧
    (get_cached (set_cached c t₀ k v) now₂ k).1 = none ∧
    set_cached c t₀ k v k = some (v, t₀) ∧
    (∀ v' t₁, set_cached (set_cached c t₀ k v) t₁ k v' k = some (v', t₁)) ∧
    (∀ (c' : Cache) (now' : ℕ) (k' : String), (get_cached c' now' k').2 = c') := by
  refine ⟨get_cached_hit (set_cached_eq c t₀ k v) h₁, ?_, set_cached_eq c t₀ k v,
    fun v' t₁ => set_cached_eq _ t₁ k v', fun c' now' k' => get_cached_pure c' now' k'⟩
  unfold get_cached
  rw [set_cached_eq]
  simp [Nat.not_lt.mpr h₂]

/-- Witness for C2 at key `"k"`, write time 0, reads at 59 and 60. -/
theorem claim_C2_witness :
    (get_cached (set_cached emptyCache 0 "k" (CacheVal.price 1)) 59 "k").1 =
        some (CacheVal.price 1) ∧
    (get_cached (set_cached emptyCache 0 "k" (CacheVal.price 1)) 60 "k").1 = none ∧
    set_cached emptyCache 0 "k" (CacheVal.price 1) "k" = some (CacheVal.price 1, 0) :=
  ⟨(claim_C2 emptyCache "k" (CacheVal.price 1) 0 59 60 (by decide) (by decide)).1,
   (claim_C2 emptyCache "k" (CacheVal.price 1) 0 59 60 (by decide) (by decide)).2.1,
   (claim_C2 emptyCache "k" (CacheVal.price 1) 0 59 60 (by decide) (by decide)).2.2.1⟩

/-- Claim C3: on a cache miss, a parsed `USD.last ≤ 0` makes
`fetch_btc_price` return absent with the cache untouched, while a strictly
positive parse is both returned and written under `"btc_price"`. -/
theorem claim_C3 (c : Cache) (now : ℕ) (last : ℚ)
    (hmiss : truthyOpt (get_cached c now "btc_price").1 = false) :
    (last ≤ 0 → fetch_btc_price (PriceResp.ok last) c now = (none, c, 1)) ∧
    (0 < last → fetch_btc_price (PriceResp.ok last) c now =
      (some (CacheVal.price last), set_cached c now "btc_price" (CacheVal.price last), 1)) := by
  have hnet : fetch_btc_price (PriceResp.ok last) c now = btc_net (PriceResp.ok last) c now := by
    unfold fetch_btc_price
    cases hg : (get_cached c now "btc_price").1 with
    | none => rfl
    | some cv =>
        rw [hg] at hmiss
        simp only [truthyOpt] at hmiss
        simp [hmiss]
  constructor
  · intro h
    rw [hnet]
    simp [btc_net, not_lt.mpr h]
  · intro h
    rw [hnet]
    simp [btc_net, h]

/-- Witness for C3: a parsed `-1` is dropped without caching, a parsed `5`
is returned and cached. -/
theorem claim_C3_witness :
    fetch_btc_price (PriceResp.ok (-1)) emptyCache 0 = (none, emptyCache, 1) ∧
    fetch_btc_price (PriceResp.ok 5) emptyCache 0 =
      (some (CacheVal.price 5), set_cached emptyCache 0 "btc_price" (CacheVal.price 5), 1) :=
  ⟨(claim_C3 emptyCache 0 (-1) (by decide)).1 (by norm_num),
   (claim_C3 emptyCache 0 5 (by decide)).2 (by norm_num)⟩

/-- Claim C4: on `[0,100]` the label function of the sentiment fetcher
yields exactly the five fixed labels with inclusive upper thresholds. -/
theorem claim_C4 (v : ℕ) (hv : v ≤ 100) :
    (fg_label v = "Extreme Fear" ∨ fg_label v = "Fear" ∨ fg_label v = "Neutral" ∨
      fg_label v = "Greed" ∨ fg_label v = "Extreme Greed") ∧
    (v ≤ 25 → fg_label v = "Extreme Fear") ∧
    (26 ≤ v → v ≤ 45 → fg_label v = "Fear") ∧
    (46 ≤ v → v ≤ 55 → fg_label v = "Neutral") ∧
    (56 ≤ v → v ≤ 75 → fg_label v = "Greed") ∧
    (76 ≤ v → fg_label v = "Extreme Greed") := by
  unfold fg_label
  refine ⟨?_, ?_, ?_, ?_, ?_, ?_⟩
  · split_ifs <;> simp
  · intro h; rw [if_pos h]
  · intro h1 h2; split_ifs <;> first | rfl | omega
  · intro h1 h2; split_ifs <;> first | rfl | omega
  · intro h1 h2; split_ifs <;> first | rfl | omega
  · intro h; split_ifs <;> first | rfl | omega

/-- Witness for C4 at the boundary values 25, 26, 45, 46, 55, 56, 75, 76. -/
theorem claim_C4_witness :
    fg_label 25 = "Extreme Fear" ∧ fg_label 26 = "Fear" ∧ fg_label 45 = "Fear" ∧
    fg_label 46 = "Neutral" ∧ fg_label 55 = "Neutral" ∧ fg_label 56 = "Greed" ∧
    fg_label 75 = "Greed" ∧ fg_label 76 = "Extreme Greed" :=
  ⟨(claim_C4 25 (by decide)).2.1 (by decide),
   (claim_C4 26 (by decide)).2.2.1 (by decide) (by decide),
   (claim_C4 45 (by decide)).2.2.1 (by decide) (by decide),
   (claim_C4 46 (by decide)).2.2.2.1 (by decide) (by decide),
   (claim_C4 55 (by decide)).2.2.2.1 (by decide) (by decide),
   (claim_C4 56 (by decide)).2.2.2.2.1 (by decide) (by decide),
   (claim_C4 75 (by decide)).2.2.2.2.1 (by decide) (by decide),
   (claim_C4 76 (by decide)).2.2.2.2.2 (by decide)⟩

/-- Claim C5: the `Now` pattern is tried first, the `Index` pattern only
when it found nothing; `"Index: 42"` text without a `Now` match extracts
42, text with both `"Now 70"` and `"Index 10"` extracts 70. -/
theorem claim_C5 :
    (∀ (t : String) (v : ℕ), searchNow t = some v → extract_fg_value t = some v) ∧
    (∀ t : String, searchNow t = none → extract_fg_value t = searchIndex t) ∧
    searchNow "Fear and Greed Index: 42" = none ∧
    extract_fg_value "Fear and Greed Index: 42" = some 42 ∧
    extract_fg_value "Now 70 and Index 10" = some 70 ∧
    searchIndex "Now 70 and Index 10" = some 10 := by
  refine ⟨?_, ?_, by decide, by decide, by decide, by decide⟩
  · intro t v h
    unfold extract_fg_value
    rw [h]
  · intro t h
    unfold extract_fg_value
    rw [h]

/-- Witness for C5's universally quantified parts. -/
theorem claim_C5_witness : extract_fg_value "Now 7" = some 7 :=
  claim_C5.1 "Now 7" 7 (by decide)

/-- Claim C7 counterexample: the price-ticker GET of `fetch_btc_price`
(src/bot.py line 99) passes no headers at all, so it does not carry the
browser-like `User-Agent` the claim asserts for every outbound request. -/
theorem claim_C7_cex :
    ("User-Agent", USER_AGENT) ∉ btc_price_request.headers ∧
    btc_price_request.headers = [] := by
  exact ⟨by decide, rfl⟩

/-- Claim C7 amended: both GETs use `timeout = 15`; the sentiment-page GET
of `fetch_html` carries the browser-like header set (`User-Agent` etc.),
but the price-ticker GET passes no custom headers. -/
theorem claim_C7_amended :
    (fetch_html_request "https://alternative.me/crypto/fear-and-greed-index/").timeout =
        REQUEST_TIMEOUT ∧
    ("User-Agent", USER_AGENT) ∈
      (fetch_html_request "https://alternative.me/crypto/fear-and-greed-index/").headers ∧
    btc_price_request.url = "https://blockchain.info/ticker" ∧
    btc_price_request.timeout = REQUEST_TIMEOUT ∧
    btc_price_request.headers = [] ∧
    REQUEST_TIMEOUT = 15 := by
  refine ⟨rfl, ?_, rfl, rfl, rfl, rfl⟩
  simp [fetch_html_request]

/-- Claim C10: when the `Now` pattern matches a value above 100,
`fetch_fear_greed` (on a cache miss) returns the absent pair and caches
nothing — the `Index` fallback is never consulted. -/
theorem claim_C10 (t : String) (v : ℕ) (c : Cache) (now : ℕ)
    (hm : searchNow t = some v) (hrange : 100 < v)
    (hmiss : truthyOpt (get_cached c now "fear_greed").1 = false) :
    fetch_fear_greed (FGResp.text t) c now = (FGRet.tup none, c, 1) := by
  have hnet : fetch_fear_greed (FGResp.text t) c now = fg_net (FGResp.text t) c now := by
    unfold fetch_fear_greed
    cases hg : (get_cached c now "fear_greed").1 with
    | none => rfl
    | some cv =>
        rw [hg] at hmiss
        cases cv with
        | fg v' l => simp [truthyOpt, CacheVal.truthy] at hmiss
        | price p =>
            simp only [truthyOpt, CacheVal.truthy, decide_eq_false_iff_not, not_not] at hmiss
            simp [hmiss]
  have he : extract_fg_value t = some v := by
    unfold extract_fg_value
    rw [hm]
  have hv' : ¬ v ≤ 100 := Nat.not_le.mpr hrange
  rw [hnet]
  simp [fg_net, he, hv']

/-- Witness for C10: `"Now 999 Index 50"` has an in-range `Index` match,
yet the out-of-range `Now` match makes the fetcher return absent. -/
theorem claim_C10_witness :
    searchNow "Now 999 Index 50" = some 999 ∧
    searchIndex "Now 999 Index 50" = some 50 ∧
    fetch_fear_greed (FGResp.text "Now 999 Index 50") emptyCache 0 =
      (FGRet.tup none, emptyCache, 1) :=
  ⟨by decide, by decide,
   claim_C10 "Now 999 Index 50" 999 emptyCache 0 (by decide) (by decide) (by decide)⟩

/-! ### The composer never fails on a well-shaped sentiment slot -/

/-- A `get_cached` result that is not a truthy float: exactly the results
on which `fetch_fear_greed` cannot hand a raw float to the caller. -/
def notFloatVal : Option CacheVal → Prop
  | some (CacheVal.price p) => p = 0
  | _ => True

theorem notFloatVal_of_entry {c : Cache} {now : ℕ}
    (h : fgEntryNotFloat (c "fear_greed")) :
    notFloatVal (get_cached c now "fear_greed").1 := by
  unfold get_cached
  cases hk : c "fear_greed" with
  | none => trivial
  | some e =>
      obtain ⟨v, t⟩ := e
      rw [hk] at h
      by_cases hf : now - t < CACHE_TTL
      · simp only [hf, if_true]
        cases v with
        | price p => exact h
        | fg _ _ => trivial
      · simp only [hf, if_false]
        trivial

theorem notFloatVal_of_missB {c : Cache} {now : ℕ}
    (h : truthyOpt (get_cached c now "fear_greed").1 = false) :
    notFloatVal (get_cached c now "fear_greed").1 := by
  cases hg : (get_cached c now "fear_greed").1 with
  | none => trivial
  | some cv =>
      rw [hg] at h
      cases cv with
      | price p =>
          simp only [truthyOpt, CacheVal.truthy, decide_eq_false_iff_not, not_not] at h
          exact h
      | fg v l => simp [truthyOpt, CacheVal.truthy] at h

/-- On a cache miss (the `if cached:` check fails), `fetch_btc_price` runs
its network path. -/
theorem btc_miss_net {c : Cache} {now : ℕ} (r : PriceResp)
    (h : truthyOpt (get_cached c now "btc_price").1 = false) :
    fetch_btc_price r c now = btc_net r c now := by
  unfold fetch_btc_price
  cases hg : (get_cached c now "btc_price").1 with
  | none => rfl
  | some cv =>
      rw [hg] at h
      simp only [truthyOpt] at h
      simp [h]

/-- On a cache miss (the `if cached:` check fails), `fetch_fear_greed` runs
its network path. -/
theorem fg_miss_net {c : Cache} {now : ℕ} (r : FGResp)
    (h : truthyOpt (get_cached c now "fear_greed").1 = false) :
    fetch_fear_greed r c now = fg_net r c now := by
  unfold fetch_fear_greed
  cases hg : (get_cached c now "fear_greed").1 with
  | none => rfl
  | some cv =>
      rw [hg] at h
      cases cv with
      | fg v l => simp [truthyOpt, CacheVal.truthy] at h
      | price p =>
          simp only [truthyOpt, CacheVal.truthy, decide_eq_false_iff_not, not_not] at h
          simp [h]

/-- Every failure outcome makes the price network path return the sentinel. -/
theorem btc_net_fails {r : PriceResp} (h : r.failsB = true) (c : Cache) (now : ℕ) :
    btc_net r c now = (none, c, 1) := by
  cases r with
  | exn => rfl
  | missing => rfl
  | ok last =>
      simp only [PriceResp.failsB, decide_eq_true_eq] at h
      simp [btc_net, not_lt.mpr h]

/-- Every failure outcome makes the sentiment network path return the
absent pair. -/
theorem fg_net_fails {r : FGResp} (h : r.failsB = true) (c : Cache) (now : ℕ) :
    fg_net r c now = (FGRet.tup none, c, 1) := by
  cases r with
  | htmlFail => rfl
  | exn => rfl
  | text t =>
      simp only [FGResp.failsB] at h
      cases he : extract_fg_value t with
      | none => simp [fg_net, he]
      | some v =>
          rw [he] at h
          simp only [Bool.not_eq_true', decide_eq_false_iff_not] at h
          have h' : ¬ v ≤ 100 := fun hv => h ⟨Nat.zero_le v, hv⟩
          simp [fg_net, he, h, h']

/-- The composer's final cache is the sentiment fetcher's final cache. -/
theorem gms_cache (pr : PriceResp) (fr : FGResp) (c : Cache) (now : ℕ) :
    (get_market_snapshot pr fr c now).2.1 =
      (fetch_fear_greed fr (fetch_btc_price pr c now).2.1 now).2.1 := by
  simp only [get_market_snapshot]
  cases (fetch_fear_greed fr (fetch_btc_price pr c now).2.1 now).1 <;> rfl

/-- When the sentiment slot does not hold a truthy float, the composer
produces a well-formed snapshot whose fields are exactly the two fetchers'
independent results. -/
theorem gms_shape (pr : PriceResp) (fr : FGResp) (c : Cache) (now : ℕ)
    (hnf : notFloatVal (get_cached c now "fear_greed").1) :
    ∃ o : Option (ℕ × String),
      (fetch_fear_greed fr c now).1 = FGRet.tup o ∧
      get_market_snapshot pr fr c now =
        (some { btc_price := (fetch_btc_price pr c now).1, fear_value := o.map Prod.fst,
                fear_label := o.map Prod.snd, timestamp := now },
         (fetch_fear_greed fr (fetch_btc_price pr c now).2.1 now).2.1,
         (fetch_btc_price pr c now).2.2 +
           (fetch_fear_greed fr (fetch_btc_price pr c now).2.1 now).2.2) := by
  have hval : (fetch_fear_greed fr (fetch_btc_price pr c now).2.1 now).1 =
      (fetch_fear_greed fr c now).1 := by
    rcases btc_fetch_shape pr c now with ⟨cv, _, _, he⟩ | he
    · rw [he]
    · rcases btc_net_shape pr c now with hn | ⟨p, _, hn⟩
      · rw [he, hn]
      · rw [he, hn]
        exact fg_fst_after_btc_set fr c now now _
  have htup : ∃ o, (fetch_fear_greed fr c now).1 = FGRet.tup o := by
    rcases fg_fetch_shape fr c now with ⟨v, l, _, he⟩ | ⟨p, hp, hg, he⟩ | he
    · exact ⟨some (v, l), by rw [he]⟩
    · rw [hg] at hnf
      exact absurd hnf hp
    · rcases fg_net_shape fr c now with hn | ⟨v, _, hn⟩
      · exact ⟨none, by rw [he, hn]⟩
      · exact ⟨some (v, fg_label v), by rw [he, hn]⟩
  obtain ⟨o, ho⟩ := htup
  have ho' : (fetch_fear_greed fr (fetch_btc_price pr c now).2.1 now).1 = FGRet.tup o := by
    rw [hval, ho]
  refine ⟨o, ho, ?_⟩
  simp only [get_market_snapshot]
  rw [ho']

/-! ### Claims about the composer -/

/-- Claim C1: the composer calls both fetchers independently and
unconditionally; the snapshot's price field is exactly the price fetcher's
result and its sentiment fields exactly the sentiment fetcher's result, so
a single-source failure leaves exactly that field absent, and the composer
always returns a snapshot carrying all four fields (for any cache whose
sentiment slot is not a truthy float — true of every reachable cache). -/
theorem claim_C1 (pr : PriceResp) (fr : FGResp) (c : Cache) (now : ℕ)
    (hwt : fgEntryNotFloat (c "fear_greed")) :
    ∃ (snap : Snapshot) (c' : Cache) (n : ℕ) (o : Option (ℕ × String)),
      get_market_snapshot pr fr c now = (some snap, c', n) ∧
      snap.btc_price = (fetch_btc_price pr c now).1 ∧
      (fetch_fear_greed fr c now).1 = FGRet.tup o ∧
      snap.fear_value = o.map Prod.fst ∧
      snap.fear_label = o.map Prod.snd ∧
      snap.timestamp = now ∧
      ((fetch_btc_price pr c now).1 = none → ∀ p : ℕ × String, o = some p →
        snap.btc_price = none ∧ snap.fear_value = some p.1 ∧ snap.fear_label = some p.2) ∧
      ((fetch_btc_price pr c now).1 ≠ none → o = none →
        snap.btc_price ≠ none ∧ snap.fear_value = none ∧ snap.fear_label = none) := by
  obtain ⟨o, ho, hgms⟩ := gms_shape pr fr c now (notFloatVal_of_entry hwt)
  refine ⟨_, _, _, o, hgms, rfl, ho, rfl, rfl, rfl, ?_, ?_⟩
  · intro hb p hp
    subst hp
    exact ⟨hb, rfl, rfl⟩
  · intro hb hp
    subst hp
    exact ⟨hb, rfl, rfl⟩

/-- Witness for C1: empty cache, price source succeeds with 5, sentiment
page reads `"Now 38"`. -/
theorem claim_C1_witness :
    fgEntryNotFloat (emptyCache "fear_greed") ∧
    ∃ (snap : Snapshot) (c' : Cache) (n : ℕ) (o : Option (ℕ × String)),
      get_market_snapshot (PriceResp.ok 5) (FGResp.text "Now 38") emptyCache 0 =
        (some snap, c', n) ∧
      snap.btc_price = (fetch_btc_price (PriceResp.ok 5) emptyCache 0).1 ∧
      (fetch_fear_greed (FGResp.text "Now 38") emptyCache 0).1 = FGRet.tup o ∧
      snap.fear_value = o.map Prod.fst ∧
      snap.fear_label = o.map Prod.snd ∧
      snap.timestamp = 0 ∧
      ((fetch_btc_price (PriceResp.ok 5) emptyCache 0).1 = none → ∀ p : ℕ × String,
        o = some p →
        snap.btc_price = none ∧ snap.fear_value = some p.1 ∧ snap.fear_label = some p.2) ∧
      ((fetch_btc_price (PriceResp.ok 5) emptyCache 0).1 ≠ none → o = none →
        snap.btc_price ≠ none ∧ snap.fear_value = none ∧ snap.fear_label = none) :=
  ⟨trivial, claim_C1 (PriceResp.ok 5) (FGResp.text "Now 38") emptyCache 0 trivial⟩

/-- Claim C6: every upstream failure mode collapses to the sentinel absent
result (`None` for the price, the wholly absent pair for sentiment) — no
exception crosses the fetchers' boundary — and the composer still produces
a snapshot. -/
theorem claim_C6 (pr : PriceResp) (fr : FGResp) (c : Cache) (now : ℕ)
    (hpm : truthyOpt (get_cached c now "btc_price").1 = false)
    (hfm : truthyOpt (get_cached c now "fear_greed").1 = false) :
    (pr.failsB = true → fetch_btc_price pr c now = (none, c, 1)) ∧
    (fr.failsB = true → fetch_fear_greed fr c now = (FGRet.tup none, c, 1)) ∧
    ((get_market_snapshot pr fr c now).1).isSome = true := by
  refine ⟨?_, ?_, ?_⟩
  · intro h
    rw [btc_miss_net pr hpm]
    exact btc_net_fails h c now
  · intro h
    rw [fg_miss_net fr hfm]
    exact fg_net_fails h c now
  · obtain ⟨o, _, hgms⟩ := gms_shape pr fr c now (notFloatVal_of_missB hfm)
    rw [hgms]
    rfl

/-- Witness for C6: empty cache, transport error on the price call, failed
page fetch on the sentiment call. -/
theorem claim_C6_witness :
    fetch_btc_price PriceResp.exn emptyCache 0 = (none, emptyCache, 1) ∧
    fetch_fear_greed FGResp.htmlFail emptyCache 0 = (FGRet.tup none, emptyCache, 1) ∧
    ((get_market_snapshot PriceResp.exn FGResp.htmlFail emptyCache 0).1).isSome = true :=
  ⟨(claim_C6 PriceResp.exn FGResp.htmlFail emptyCache 0 (by decide) (by decide)).1 rfl,
   (claim_C6 PriceResp.exn FGResp.htmlFail emptyCache 0 (by decide) (by decide)).2.1 rfl,
   (claim_C6 PriceResp.exn FGResp.htmlFail emptyCache 0 (by decide) (by decide)).2.2⟩

/-! ### The cache invariant (claim C9) -/

theorem CacheWF_set_price {c : Cache} (h : CacheWF c) {p : ℚ} (hp : 0 < p) (now : ℕ) :
    CacheWF (set_cached c now "btc_price" (CacheVal.price p)) := by
  constructor
  · rw [set_cached_eq]
    exact hp
  · rw [set_cached_ne _ _ _ _ _ (by decide)]
    exact h.2

theorem CacheWF_set_fg {c : Cache} (h : CacheWF c) {v : ℕ} (hv : v ≤ 100) (now : ℕ) :
    CacheWF (set_cached c now "fear_greed" (CacheVal.fg v (fg_label v))) := by
  constructor
  · rw [set_cached_ne _ _ _ _ _ (by decide)]
    exact h.1
  · rw [set_cached_eq]
    exact ⟨hv, rfl⟩

theorem CacheWF_btc (r : PriceResp) (c : Cache) (now : ℕ) (h : CacheWF c) :
    CacheWF (fetch_btc_price r c now).2.1 := by
  rcases btc_fetch_shape r c now with ⟨cv, _, _, he⟩ | he
  · rw [he]
    exact h
  · rcases btc_net_shape r c now with hn | ⟨p, hp, hn⟩
    · rw [he, hn]
      exact h
    · rw [he, hn]
      exact CacheWF_set_price h hp now

theorem CacheWF_fg (r : FGResp) (c : Cache) (now : ℕ) (h : CacheWF c) :
    CacheWF (fetch_fear_greed r c now).2.1 := by
  rcases fg_fetch_shape r c now with ⟨v, l, _, he⟩ | ⟨p, _, _, he⟩ | he
  · rw [he]
    exact h
  · rw [he]
    exact h
  · rcases fg_net_shape r c now with hn | ⟨v, hv, hn⟩
    · rw [he, hn]
      exact h
    · rw [he, hn]
      exact CacheWF_set_fg h hv now

theorem truthy_eq_isSome_price {c : Cache} {now : ℕ} (h : priceEntryOK (c "btc_price")) :
    truthyOpt (get_cached c now "btc_price").1 = ((get_cached c now "btc_price").1).isSome := by
  unfold get_cached
  cases hk : c "btc_price" with
  | none => rfl
  | some e =>
      obtain ⟨cv, t⟩ := e
      rw [hk] at h
      by_cases hf : now - t < CACHE_TTL
      · simp only [hf, if_true]
        cases cv with
        | price p =>
            simp only [truthyOpt, CacheVal.truthy, Option.isSome_some, decide_eq_true_eq]
            exact ne_of_gt h
        | fg v l => exact h.elim
      · simp [hf, truthyOpt]

theorem truthy_eq_isSome_fg {c : Cache} {now : ℕ} (h : fgEntryOK (c "fear_greed")) :
    truthyOpt (get_cached c now "fear_greed").1 = ((get_cached c now "fear_greed").1).isSome := by
  unfold get_cached
  cases hk : c "fear_greed" with
  | none => rfl
  | some e =>
      obtain ⟨cv, t⟩ := e
      rw [hk] at h
      by_cases hf : now - t < CACHE_TTL
      · simp only [hf, if_true]
        cases cv with
        | price p => exact h.elim
        | fg v l => rfl
      · simp [hf, truthyOpt]

/-- Claim C9: starting from the empty cache, every operation of the core
preserves the invariant that the `"btc_price"` slot holds a strictly
positive price and the `"fear_greed"` slot a pair `(v, fg_label v)` with
`v ≤ 100`; consequently the truthy `if cached:` checks coincide with strict
presence-and-freshness on every reachable cache. -/
theorem claim_C9 :
    CacheWF emptyCache ∧
    (∀ (r : PriceResp) (c : Cache) (now : ℕ), CacheWF c →
      CacheWF (fetch_btc_price r c now).2.1) ∧
    (∀ (r : FGResp) (c : Cache) (now : ℕ), CacheWF c →
      CacheWF (fetch_fear_greed r c now).2.1) ∧
    (∀ (pr : PriceResp) (fr : FGResp) (c : Cache) (now : ℕ), CacheWF c →
      CacheWF (get_market_snapshot pr fr c now).2.1) ∧
    (∀ (c : Cache) (now : ℕ), CacheWF c →
      truthyOpt (get_cached c now "btc_price").1 =
        ((get_cached c now "btc_price").1).isSome ∧
      truthyOpt (get_cached c now "fear_greed").1 =
        ((get_cached c now "fear_greed").1).isSome) := by
  refine ⟨⟨trivial, trivial⟩, CacheWF_btc, CacheWF_fg, ?_, ?_⟩
  · intro pr fr c now h
    rw [gms_cache]
    exact CacheWF_fg fr _ now (CacheWF_btc pr c now h)
  · intro c now h
    exact ⟨truthy_eq_isSome_price h.1, truthy_eq_isSome_fg h.2⟩

/-- Witness for C9: the invariant after one successful snapshot from the
empty cache, and the truthiness equivalence on the empty cache. -/
theorem claim_C9_witness :
    CacheWF (get_market_snapshot (PriceResp.ok 5) (FGResp.text "Now 38") emptyCache 0).2.1 ∧
    truthyOpt (get_cached emptyCache 0 "btc_price").1 =
      ((get_cached emptyCache 0 "btc_price").1).isSome :=
  ⟨claim_C9.2.2.2.1 (PriceResp.ok 5) (FGResp.text "Now 38") emptyCache 0 claim_C9.1,
   (claim_C9.2.2.2.2 emptyCache 0 claim_C9.1).1⟩

/-! ### Cache-hit behaviour and post-states (claim C8) -/

theorem entryFresh_some {c : Cache} {now : ℕ} {k : String} {cv : CacheVal} {t : ℕ}
    (h : entryFresh c now k = true) (hk : c k = some (cv, t)) :
    now - t < CACHE_TTL := by
  unfold entryFresh at h
  rw [hk] at h
  exact of_decide_eq_true h

/-- A fresh truthy `"btc_price"` entry makes `fetch_btc_price` return it
with no network request and no cache change. -/
theorem btc_hit {c : Cache} {now : ℕ} {cv : CacheVal} (r : PriceResp)
    (hg : (get_cached c now "btc_price").1 = some cv) (ht : cv.truthy = true) :
    fetch_btc_price r c now = (some cv, c, 0) := by
  unfold fetch_btc_price
  rw [hg]
  simp [ht]

/-- A fresh pair entry under `"fear_greed"` makes `fetch_fear_greed` return
it with no network request and no cache change. -/
theorem fg_hit {c : Cache} {now : ℕ} {v : ℕ} {l : String} (r : FGResp)
    (hg : (get_cached c now "fear_greed").1 = some (CacheVal.fg v l)) :
    fetch_fear_greed r c now = (FGRet.tup (some (v, l)), c, 0) := by
  unfold fetch_fear_greed
  rw [hg]

/-- After a price fetch that returned a value, the `"btc_price"` slot holds
exactly that (truthy) value. -/
theorem btc_post {r : PriceResp} {c : Cache} {now : ℕ} {cv : CacheVal}
    (h : (fetch_btc_price r c now).1 = some cv) :
    ∃ t, (fetch_btc_price r c now).2.1 "btc_price" = some (cv, t) ∧ cv.truthy = true := by
  rcases btc_fetch_shape r c now with ⟨cv', hg, ht, he⟩ | he
  · rw [he] at h
    obtain rfl : cv' = cv := by simpa using h
    obtain ⟨t, hk, _⟩ := get_cached_some hg
    rw [he]
    exact ⟨t, hk, ht⟩
  · rcases btc_net_shape r c now with hn | ⟨p, hp, hn⟩
    · rw [he, hn] at h
      simp at h
    · rw [he, hn] at h
      obtain rfl : CacheVal.price p = cv := by simpa using h
      rw [he, hn]
      refine ⟨now, set_cached_eq c now "btc_price" (CacheVal.price p), ?_⟩
      simp only [CacheVal.truthy, decide_eq_true_eq]
      exact ne_of_gt hp

/-- After a sentiment fetch that returned a pair, the `"fear_greed"` slot
holds exactly that pair. -/
theorem fg_post {r : FGResp} {c : Cache} {now : ℕ} {v : ℕ} {l : String}
    (h : (fetch_fear_greed r c now).1 = FGRet.tup (some (v, l))) :
    ∃ t, (fetch_fear_greed r c now).2.1 "fear_greed" = some (CacheVal.fg v l, t) := by
  rcases fg_fetch_shape r c now with ⟨v', l', hg, he⟩ | ⟨p, _, _, he⟩ | he
  · rw [he] at h
    obtain ⟨rfl, rfl⟩ : v' = v ∧ l' = l := by simpa using h
    obtain ⟨t, hk, _⟩ := get_cached_some hg
    rw [he]
    exact ⟨t, hk⟩
  · rw [he] at h
    simp at h
  · rcases fg_net_shape r c now with hn | ⟨v', hv', hn⟩
    · rw [he, hn] at h
      simp at h
    · rw [he, hn] at h
      obtain ⟨h1, h2⟩ : v' = v ∧ fg_label v' = l := by simpa using h
      rw [he, hn, ← h1, ← h2]
      exact ⟨now, set_cached_eq c now "fear_greed" (CacheVal.fg v' (fg_label v'))⟩

/-- The sentiment fetcher never touches the `"btc_price"` slot. -/
theorem fg_keeps_btc (r : FGResp) (c : Cache) (now : ℕ) :
    (fetch_fear_greed r c now).2.1 "btc_price" = c "btc_price" := by
  rcases fg_fetch_shape r c now with ⟨v, l, _, he⟩ | ⟨p, _, _, he⟩ | he
  · rw [he]
  · rw [he]
  · rcases fg_net_shape r c now with hn | ⟨v, _, hn⟩
    · rw [he, hn]
    · rw [he, hn]
      exact set_cached_ne c now "fear_greed" "btc_price" (CacheVal.fg v (fg_label v))
        (by decide)

/-- Claim C8 counterexample: from the empty cache, two snapshot calls 10
seconds apart (well inside the 60-second TTL, no intervening clear) with
both sources failing — the second call still performs network requests, so
the claim's unconditional "zero additional network requests" is false. -/
theorem claim_C8_cex :
    (10 : ℕ) - 0 < CACHE_TTL ∧
    (get_market_snapshot PriceResp.exn FGResp.htmlFail
        ((get_market_snapshot PriceResp.exn FGResp.htmlFail emptyCache 0).2.1) 10).2.2 ≠ 0 := by
  decide

/-- Claim C8 amended: when the first snapshot call returns both fields
populated and both cache entries it leaves behind are still fresh at the
time of the second call (in particular any second call strictly within TTL
of a first call that fetched fresh), the second call — whatever its
sources would now return — yields the same `btc_price`, `fear_value` and
`fear_label`, and performs zero network requests. -/
theorem claim_C8_amended (p₁ : PriceResp) (f₁ : FGResp) (p₂ : PriceResp) (f₂ : FGResp)
    (c : Cache) (now₁ now₂ : ℕ) (s₁ : Snapshot)
    (h1 : (get_market_snapshot p₁ f₁ c now₁).1 = some s₁)
    (hbp : s₁.btc_price.isSome = true)
    (hfv : s₁.fear_value.isSome = true)
    (hfr1 : entryFresh (get_market_snapshot p₁ f₁ c now₁).2.1 now₂ "btc_price" = true)
    (hfr2 : entryFresh (get_market_snapshot p₁ f₁ c now₁).2.1 now₂ "fear_greed" = true) :
    ∃ s₂ : Snapshot,
      (get_market_snapshot p₂ f₂ ((get_market_snapshot p₁ f₁ c now₁).2.1) now₂).1 =
        some s₂ ∧
      s₂.btc_price = s₁.btc_price ∧
      s₂.fear_value = s₁.fear_value ∧
      s₂.fear_label = s₁.fear_label ∧
      (get_market_snapshot p₂ f₂ ((get_market_snapshot p₁ f₁ c now₁).2.1) now₂).2.2 = 0 := by
  rw [gms_cache p₁ f₁ c now₁] at hfr1 hfr2 ⊢
  simp only [get_market_snapshot] at h1
  cases hFv : (fetch_fear_greed f₁ (fetch_btc_price p₁ c now₁).2.1 now₁).1 with
  | raw p =>
      rw [hFv] at h1
      simp at h1
  | tup o =>
      rw [hFv] at h1
      simp only [Option.some.injEq] at h1
      subst h1
      obtain ⟨bp, hbp1⟩ := Option.isSome_iff_exists.mp hbp
      have hbp2 : (fetch_btc_price p₁ c now₁).1 = some bp := hbp1
      have ho : o.isSome = true := by
        have hm : (o.map Prod.fst).isSome = true := hfv
        simpa using hm
      obtain ⟨⟨fv, fl⟩, rfl⟩ := Option.isSome_iff_exists.mp ho
      obtain ⟨tb, hkb, htb⟩ := btc_post hbp2
      have hkb' : (fetch_fear_greed f₁ (fetch_btc_price p₁ c now₁).2.1 now₁).2.1 "btc_price" =
          some (bp, tb) := by
        rw [fg_keeps_btc]
        exact hkb
      obtain ⟨tf, hkf⟩ := fg_post hFv
      have hg2b := get_cached_hit hkb' (entryFresh_some hfr1 hkb')
      have hg2f := get_cached_hit hkf (entryFresh_some hfr2 hkf)
      have h2b := btc_hit p₂ hg2b htb
      have h2f := fg_hit f₂ hg2f
      have hgms2 : get_market_snapshot p₂ f₂
          ((fetch_fear_greed f₁ (fetch_btc_price p₁ c now₁).2.1 now₁).2.1) now₂ =
          (some { btc_price := some bp, fear_value := some fv, fear_label := some fl,
                  timestamp := now₂ },
           (fetch_fear_greed f₁ (fetch_btc_price p₁ c now₁).2.1 now₁).2.1, 0) := by
        simp [get_market_snapshot, h2b, h2f]
      refine ⟨{ btc_price := some bp, fear_value := some fv, fear_label := some fl,
                timestamp := now₂ }, by rw [hgms2], ?_, rfl, rfl, by rw [hgms2]⟩
      exact hbp2.symm

/-- Witness for the amended C8: the first call at time 0 fetches price 5
and sentiment 70 fresh from the network; the second call at time 30 — with
different upstream outcomes — returns the same field values and issues
zero network requests. -/
theorem claim_C8_amended_witness :
    ∃ s₂ : Snapshot,
      (get_market_snapshot (PriceResp.ok 3) (FGResp.text "no match here")
          ((get_market_snapshot (PriceResp.ok 5) (FGResp.text "Now 70") emptyCache 0).2.1)
          30).1 = some s₂ ∧
      s₂.btc_price = some (CacheVal.price 5) ∧
      s₂.fear_value = some 70 ∧
      s₂.fear_label = some "Greed" ∧
      (get_market_snapshot (PriceResp.ok 3) (FGResp.text "no match here")
          ((get_market_snapshot (PriceResp.ok 5) (FGResp.text "Now 70") emptyCache 0).2.1)
          30).2.2 = 0 := by
  have h := claim_C8_amended (PriceResp.ok 5) (FGResp.text "Now 70") (PriceResp.ok 3)
    (FGResp.text "no match here") emptyCache 0 30
    ⟨some (CacheVal.price 5), some 70, some "Greed", 0⟩
    (by decide) (by decide) (by decide) (by decide) (by decide)
  obtain ⟨s₂, h1, h2, h3, h4, h5⟩ := h
  exact ⟨s₂, h1, by rw [h2], by rw [h3], by rw [h4], h5⟩

end CryptoBot
